import Mathlib

/-!
Shallow embedding of the NumPyMathSolver pipeline (`src/main.py`) and proofs
about its specification claims.

The program is a LangGraph workflow over a per-question session state
(`GraphState`): classify the question, generate NumPy code via a language
model, verify it, refine on rejection, execute it in a sandbox, and fold
execution failures back into refinement.

Modelling choices:
* The Ollama model gateway is external; each node that calls it takes the
  response text (`resp : String`) as an explicit argument.
* Python `exec` is modelled by an oracle `ExecFn`: a function of the code
  string and the evaluation context, returning an outcome (captured stdout
  on success, or a raised fault) together with the post-execution bindings.
  The `isExc` flag of a fault records whether the raised object is an
  instance of Python's `Exception` class (`except Exception` catches those
  and only those; `SystemExit`/`KeyboardInterrupt` derive from
  `BaseException` directly and are not caught by `except Exception`).
* `sys.stdout` is modelled by an explicit `OutTarget` value threaded
  through the executor; the `try/finally` in `execute_code` restores it on
  every exit path, which the transcription makes explicit.
* The runtime state dict can lack keys that the `GraphState` TypedDict
  declares; the only key ever read with a default (`state.get
  ("execution_failed", False)`) is modelled as `Option Bool` with `none`
  for "key absent".  `execution_failed` is in fact not even declared in
  the TypedDict, it only appears in `execute_code`'s partial update.
* Python string helpers (`str.strip`, `str.upper`, `in`, `re.findall` for
  the one fixed pattern) are modelled on `List Char`; `upper` is modelled
  on the ASCII range, which is the range the scanned tokens live in.
-/

-- ---------------------------------------------------------------------
-- Python string primitives
-- ---------------------------------------------------------------------

/-- Whitespace test used by Python `str.strip()`, restricted to the ASCII
whitespace characters (space, tab, LF, VT, FF, CR). -/
def isSpacePy (c : Char) : Bool :=
  decide (c.toNat = 32 ∨ c.toNat = 9 ∨ c.toNat = 10 ∨ c.toNat = 11 ∨
          c.toNat = 12 ∨ c.toNat = 13)

/-- ASCII model of Python `str.upper()` on a single character. -/
def pyUpperChar (c : Char) : Char :=
  if 97 ≤ c.toNat ∧ c.toNat ≤ 122 then Char.ofNat (c.toNat - 32) else c

/-- Python `str.strip()` on a character list: drop leading and trailing
whitespace. -/
def pyStripL (l : List Char) : List Char :=
  (((l.dropWhile isSpacePy).reverse.dropWhile isSpacePy)).reverse

/-- Python `str.strip()` on a string. -/
def pyStripStr (s : String) : String :=
  String.mk (pyStripL s.data)

/-- Python `str.upper()` on a string (ASCII model). -/
def pyUpperStr (s : String) : String :=
  String.mk (s.data.map pyUpperChar)

/-- Split `l` at the first occurrence of the contiguous pattern `pat`:
returns `some (before, after)` with `l = before ++ pat ++ after` and
`before` shortest, or `none` when `pat` does not occur in `l`. -/
def splitOnSub (pat : List Char) : List Char → Option (List Char × List Char)
  | [] => if pat.isEmpty then some ([], []) else none
  | c :: rest =>
    if pat.isPrefixOf (c :: rest) then
      some ([], (c :: rest).drop pat.length)
    else
      match splitOnSub pat rest with
      | some (a, b) => some (c :: a, b)
      | none => none

/-- Python `pat in l` substring containment on character lists. -/
def containsSub (pat l : List Char) : Bool :=
  (splitOnSub pat l).isSome

-- ---------------------------------------------------------------------
-- Data model: GraphState (src/main.py lines 21-27)
-- ---------------------------------------------------------------------

/-- The `verification_result` dict `{"approved": ..., "feedback": ...}`. -/
structure VerificationResult where
  approved : Bool
  feedback : String
deriving Repr, DecidableEq

/-- The `GraphState` TypedDict.  `execution_failed` is not declared in the
TypedDict but is written by `execute_code` and read with
`state.get("execution_failed", False)`; `none` models the absent key. -/
structure GraphState where
  question : String
  math_related : Bool
  generated_code : String
  verification_result : VerificationResult
  refinements : List String
  execution_failed : Option Bool
  final_answer : String
deriving Repr, DecidableEq

/-- Session state at pipeline entry: only the question is populated
(`graph.invoke({"question": q})`); the other channels hold their empty
defaults and the `execution_failed` key is absent. -/
def initState (q : String) : GraphState :=
  { question := q
    math_related := false
    generated_code := ""
    verification_result := { approved := false, feedback := "" }
    refinements := []
    execution_failed := none
    final_answer := "" }

-- ---------------------------------------------------------------------
-- Helpers (src/main.py lines 204-224)
-- ---------------------------------------------------------------------

/-- The fixed opening delimiter matched by the regex
`r'\x60\x60\x60python\n(.*?)\n\x60\x60\x60'` used in `extract_code`. -/
def pyFenceOpen : List Char := "```python\n".data

/-- The fixed closing delimiter of the same regex. -/
def pyFenceClose : List Char := "\n```".data

/-- `extract_code` (lines 204-206): `re.findall` with the pattern above
(DOTALL) and take the first match if any, else the whole text.  The first
regex match starts at the leftmost occurrence of the opening delimiter
that is followed by the closing delimiter, and the non-greedy group takes
the shortest content; if the leftmost opening delimiter has no closing
delimiter after it then no later one has either (any closer for a later
opener also closes the earlier one), so falling back to the whole text is
faithful. -/
def extract_code (text : String) : String :=
  match splitOnSub pyFenceOpen text.data with
  | none => text
  | some (_, rest) =>
    match splitOnSub pyFenceClose rest with
    | none => text
    | some (content, _) => String.mk content

/-- `route_based_on_math` (lines 209-212). -/
def route_based_on_math (state : GraphState) : String :=
  if state.math_related then "math_pipeline" else "regular_response"

/-- `route_based_on_verification` (lines 215-218). -/
def route_based_on_verification (state : GraphState) : String :=
  if state.verification_result.approved then "execute_code" else "refine_code"

/-- `route_based_on_execution` (lines 221-224):
`state.get("execution_failed", False)` defaults the absent key to false. -/
def route_based_on_execution (state : GraphState) : String :=
  if state.execution_failed.getD false then "refine_code" else "END"

-- ---------------------------------------------------------------------
-- Model-gateway nodes (src/main.py lines 93-152, 195-197)
-- ---------------------------------------------------------------------

/-- `check_math_question` (lines 93-103): the gateway response content is
the argument; `is_math = 'YES' in response.strip().upper()`. -/
def check_math_question (state : GraphState) (resp : String) : GraphState :=
  { state with
    math_related := containsSub "YES".data ((pyStripL resp.data).map pyUpperChar) }

/-- `generate_initial_code` (lines 106-116): set `generated_code` to the
extraction of the gateway response. -/
def generate_initial_code (state : GraphState) (resp : String) : GraphState :=
  { state with generated_code := extract_code resp }

/-- `verify_code` (lines 119-135): `approved = 'APPROVED' in
feedback.upper()` with `feedback` the raw response text. -/
def verify_code (state : GraphState) (resp : String) : GraphState :=
  { state with
    verification_result :=
      { approved := containsSub "APPROVED".data (resp.data.map pyUpperChar)
        feedback := resp } }

/-- `refine_code` (lines 138-152): replace `generated_code` wholesale with
the extraction of the refinement response (the prompt consumes
`generated_code` and `verification_result.feedback` but the state update
is only the new code). -/
def refine_code (state : GraphState) (resp : String) : GraphState :=
  { state with generated_code := extract_code resp }

/-- `regular_response` (lines 195-197): fixed refusal answer. -/
def regular_response (state : GraphState) : GraphState :=
  { state with final_answer := "I'm sorry, I only answer coding questions." }

-- ---------------------------------------------------------------------
-- Sandboxed executor (src/main.py lines 155-192)
-- ---------------------------------------------------------------------

/-- Values that can be bound in the `exec` evaluation context; the only
binding the executor exposes is the NumPy module alias. -/
inductive PyVal where
  | np
deriving Repr, DecidableEq

/-- Evaluation context: the `loc` dict passed to `exec`. -/
def Ctx := List (String × PyVal)

/-- Association lookup in an evaluation context. -/
def lookupCtx : List (String × PyVal) → String → Option PyVal
  | [], _ => none
  | (k, v) :: rest, n => if k = n then some v else lookupCtx rest n

/-- Outcome of `exec(code, loc)`: either normal completion with the text
written to the captured stdout, or a raised fault.  `isExc` records
whether the raised object is an instance of `Exception` (as opposed to a
bare `BaseException` subclass such as `SystemExit` or
`KeyboardInterrupt`). -/
inductive ExecOutcome where
  | success (printed : String)
  | fault (isExc : Bool) (msg trace : String)
deriving Repr, DecidableEq

/-- Oracle for Python `exec`: given the code string and the evaluation
context it is started in, return the outcome and the final bindings.  It
is a pure function: code behavior depends only on the code text and the
context (the "no shared external state" premise of the spec). -/
def ExecFn := String → List (String × PyVal) → ExecOutcome × List (String × PyVal)

/-- An oracle that ignores code and context and always yields `o`. -/
def constExec (o : ExecOutcome) : ExecFn :=
  fun _ ctx => (o, ctx)

/-- Model of the global `sys.stdout` target. -/
inductive OutTarget where
  | real
  | capture
deriving Repr, DecidableEq

/-- The fresh `loc = {"np": np}` dict built at every executor call
(line 157). -/
def sandboxCtx : List (String × PyVal) := [("np", PyVal.np)]

/-- Lines 156-168 of `execute_code`: build a fresh context, redirect the
global stdout to a fresh capture buffer, run `exec`, and restore stdout in
the `finally` clause.  The restoration happens on every exit path: normal
completion, a fault about to be caught by `except Exception`, and a fault
that will propagate.  The final bindings of the context are discarded
(`loc` goes out of scope). -/
def sandboxRun (execF : ExecFn) (code : String) (stdout0 : OutTarget) :
    ExecOutcome × OutTarget :=
  let loc := sandboxCtx
  let old_stdout := stdout0
  let _redirected := OutTarget.capture
  let res := execF code loc
  (res.1, old_stdout)

/-- `execute_code` (lines 155-192).  On success: compose the final answer
from the code and the stripped captured output, clear `execution_failed`.
On a fault caught by `except Exception`: compose the failure answer, set
`execution_failed`, and overwrite `verification_result` with the
execution diagnostics.  A fault that is not an `Exception` instance
propagates out of the function (`Except.error`); stdout has already been
restored by the `finally` clause. -/
def execute_code (execF : ExecFn) (state : GraphState) (stdout0 : OutTarget) :
    Except (String × String) GraphState × OutTarget :=
  match sandboxRun execF state.generated_code stdout0 with
  | (ExecOutcome.success printed, stdout1) =>
    let printed_output := pyStripStr printed
    let final_text :=
      "Final Code:\n\n```\n" ++ state.generated_code ++
        "\n```\n\nPrinted Output:\n" ++ printed_output
    (Except.ok { state with
                  final_answer := final_text
                  execution_failed := some false }, stdout1)
  | (ExecOutcome.fault true error_message stack_trace, stdout1) =>
    let updated_feedback :=
      "\nExecution Error: " ++ error_message ++ "\nStack Trace:\n" ++ stack_trace
    let final_text :=
      "Final Code:\n" ++ state.generated_code ++
        "\n\nError in execution: " ++ error_message ++
        "\nStack Trace:\n" ++ stack_trace
    (Except.ok { state with
                  final_answer := final_text
                  execution_failed := some true
                  verification_result :=
                    { approved := false, feedback := updated_feedback } }, stdout1)
  | (ExecOutcome.fault false error_message stack_trace, stdout1) =>
    (Except.error (error_message, stack_trace), stdout1)

/-- Two consecutive sandboxed-executor invocations, threading the global
stdout between them (the only global the executor touches). -/
def twoInvocations (execF : ExecFn) (c₁ c₂ : String) (stdout0 : OutTarget) :
    ExecOutcome × ExecOutcome × OutTarget :=
  let r₁ := sandboxRun execF c₁ stdout0
  let r₂ := sandboxRun execF c₂ r₁.2
  (r₁.1, r₂.1, r₂.2)

-- ---------------------------------------------------------------------
-- Workflow state machine (src/main.py lines 231-276)
-- ---------------------------------------------------------------------

/-- Graph nodes plus the reserved END sentinel. -/
inductive Node where
  | check_math
  | math_pipeline
  | verify_code
  | refine_code
  | execute_code
  | regular_response
  | END
deriving Repr, DecidableEq

/-- Conditional edges out of `check_math` (lines 245-252): apply the
router and look its answer up in the mapping dict. -/
def nodeAfterCheckMath (state : GraphState) : Node :=
  if route_based_on_math state = "math_pipeline" then Node.math_pipeline
  else Node.regular_response

/-- Conditional edges out of `verify_code` (lines 255-262). -/
def nodeAfterVerification (state : GraphState) : Node :=
  if route_based_on_verification state = "execute_code" then Node.execute_code
  else Node.refine_code

/-- Conditional edges out of `execute_code` (lines 266-273). -/
def nodeAfterExecution (state : GraphState) : Node :=
  if route_based_on_execution state = "refine_code" then Node.refine_code
  else Node.END

/-- Result of driving the compiled graph for a bounded number of steps. -/
inductive RunResult where
  | finished (state : GraphState)
  | escaped (msg trace : String) (state : GraphState)
  | pending (next : Node) (state : GraphState)
deriving Repr, DecidableEq

/-- Pipeline driver: run the graph from `node` on `state`, consuming one
gateway response per model-calling node from `resps` (an exhausted list
supplies `""`), with `execF` the `exec` oracle.  `fuel` bounds the number
of steps; `pending n st` reports that step `n` is about to run on `st`
when fuel runs out, `escaped` reports a fault that propagated out of the
executor uncaught. -/
def run (execF : ExecFn) : Nat → Node → GraphState → List String → RunResult
  | 0, n, st, _ => RunResult.pending n st
  | fuel + 1, n, st, resps =>
    match n with
    | Node.check_math =>
      let st' := check_math_question st (resps.headD "")
      run execF fuel (nodeAfterCheckMath st') st' resps.tail
    | Node.math_pipeline =>
      let st' := generate_initial_code st (resps.headD "")
      run execF fuel Node.verify_code st' resps.tail
    | Node.verify_code =>
      let st' := verify_code st (resps.headD "")
      run execF fuel (nodeAfterVerification st') st' resps.tail
    | Node.refine_code =>
      let st' := refine_code st (resps.headD "")
      run execF fuel Node.verify_code st' resps.tail
    | Node.execute_code =>
      match (execute_code execF st OutTarget.real).1 with
      | Except.ok st' => run execF fuel (nodeAfterExecution st') st' resps
      | Except.error (msg, tr) => RunResult.escaped msg tr st
    | Node.regular_response =>
      let st' := regular_response st
      run execF fuel Node.END st' resps
    | Node.END => RunResult.finished st

-- ---------------------------------------------------------------------
-- Spec-side definitions (phrased from the claims, for comparison)
-- ---------------------------------------------------------------------

/-- Spec-side: case-insensitive containment of the affirmative token
`YES` in a response text (uppercase the text, then substring test). -/
def containsYesCI (resp : String) : Bool :=
  containsSub "YES".data (resp.data.map pyUpperChar)

/-- Spec-side: `c` is the content of a python-tagged fenced code block of
`t` with prefix `pre` and suffix `post`. -/
def PyFenceAt (t : String) (pre c post : List Char) : Prop :=
  t.data = pre ++ pyFenceOpen ++ c ++ pyFenceClose ++ post

/-- Spec-side: `t` contains a python-tagged fenced code block. -/
def HasPyFence (t : String) : Prop :=
  ∃ pre c post, PyFenceAt t pre c post

/-- Spec-side (claim C3's words): `c` is the content of some fenced code
block of `t`, delimiters stripped, with no language-tag requirement. -/
def GenericFence (t : String) (c : String) : Prop :=
  ∃ pre post, t.data = pre ++ "```".data ++ c.data ++ "```".data ++ post

-- ---------------------------------------------------------------------
-- Concrete scenarios used in counterexamples and witnesses
-- ---------------------------------------------------------------------

/-- An `exec` oracle for code that raises a standard exception, e.g. the
code `raise ValueError("boom")`. -/
def faultExec : ExecFn := constExec (ExecOutcome.fault true "boom" "tb")

/-- An `exec` oracle for code whose execution raises a fault that is not
an `Exception` instance, e.g. the code `raise SystemExit` (or `exit()`),
which raises `SystemExit`, a direct subclass of `BaseException`. -/
def baseFaultExec : ExecFn := constExec (ExecOutcome.fault false "SystemExit" "tb0")

/-- An `exec` oracle for benign code that prints `4`. -/
def okExec : ExecFn := constExec (ExecOutcome.success "4\n")

/-- A response text containing a fenced code block that carries no
language tag. -/
def fenceCexText : String := "```\nx=1\n```"

/-- Session state reached after Classify (response `YES`) and Generate
(response the empty string) on question `q`: the Verify step is about to
run with `generated_code` empty. -/
def c9State : GraphState :=
  { question := "q"
    math_related := true
    generated_code := ""
    verification_result := { approved := false, feedback := "" }
    refinements := []
    execution_failed := none
    final_answer := "" }

/-- Session state reached after Classify (`YES`), Generate (a fenced
`x=1`), Verify (`APPROVED`) and a failing Execute (error `boom`, trace
`tb`): the final answer is populated, yet the Refine step is about to
run. -/
def c1StateA : GraphState :=
  { question := "q"
    math_related := true
    generated_code := "x=1"
    verification_result :=
      { approved := false, feedback := "\nExecution Error: boom\nStack Trace:\ntb" }
    refinements := []
    execution_failed := some true
    final_answer := "Final Code:\nx=1\n\nError in execution: boom\nStack Trace:\ntb" }

/-- The state one step later: Refine has run (on the empty follow-up
response) while `final_answer` was already populated. -/
def c1StateB : GraphState :=
  { c1StateA with generated_code := "" }

-- ---------------------------------------------------------------------
-- Helper lemmas: splitOnSub and substring containment
-- ---------------------------------------------------------------------

theorem splitOnSub_eq_some {pat l a b : List Char}
    (h : splitOnSub pat l = some (a, b)) : l = a ++ pat ++ b := by
  induction l generalizing a b with
  | nil =>
    simp only [splitOnSub] at h
    split at h
    · rename_i hemp
      obtain ⟨rfl, rfl⟩ : a = [] ∧ b = [] := by
        constructor <;> injection h with h' <;> cases h' <;> rfl
      simp [List.isEmpty_iff.mp hemp]
    · cases h
  | cons c rest ih =>
    simp only [splitOnSub] at h
    split at h
    · rename_i hpre
      obtain ⟨t, ht⟩ := List.isPrefixOf_iff_prefix.mp hpre
      injection h with h'
      obtain ⟨rfl, rfl⟩ : a = [] ∧ b = (c :: rest).drop pat.length := by
        constructor <;> cases h' <;> rfl
      rw [List.nil_append, ← ht, List.drop_left]
    · rename_i hpre
      cases hrec : splitOnSub pat rest with
      | none => rw [hrec] at h; cases h
      | some ab =>
        obtain ⟨a₀, b₀⟩ := ab
        rw [hrec] at h
        injection h with h'
        obtain ⟨rfl, rfl⟩ : a = c :: a₀ ∧ b = b₀ := by
          constructor <;> cases h' <;> rfl
        simp [ih hrec]

theorem splitOnSub_min {pat l a b : List Char}
    (h : splitOnSub pat l = some (a, b)) :
    ∀ a' b', l = a' ++ pat ++ b' → a.length ≤ a'.length := by
  induction l generalizing a b with
  | nil =>
    intro a' b' _
    simp only [splitOnSub] at h
    split at h
    · have : a = [] := by injection h with h'; cases h'; rfl
      simp [this]
    · cases h
  | cons c rest ih =>
    intro a' b' h'
    simp only [splitOnSub] at h
    split at h
    · have : a = [] := by injection h with h''; cases h''; rfl
      simp [this]
    · rename_i hpre
      cases hrec : splitOnSub pat rest with
      | none => rw [hrec] at h; cases h
      | some ab =>
        obtain ⟨a₀, b₀⟩ := ab
        rw [hrec] at h
        have ha : a = c :: a₀ := by injection h with h''; cases h''; rfl
        cases a' with
        | nil =>
          exfalso
          apply hpre
          apply List.isPrefixOf_iff_prefix.mpr
          exact ⟨b', by simpa using h'.symm⟩
        | cons c' a'' =>
          have : rest = a'' ++ pat ++ b' := by
            have := h'
            simp only [List.cons_append] at this
            injection this with _ h₂
          subst ha
          have := ih hrec a'' b' this
          simp only [List.length_cons]
          omega

theorem splitOnSub_none {pat l : List Char}
    (h : splitOnSub pat l = none) : ∀ a b, l ≠ a ++ pat ++ b := by
  induction l with
  | nil =>
    intro a b heq
    simp only [splitOnSub] at h
    split at h
    · cases h
    · rename_i hemp
      have hnil : a ++ pat ++ b = [] := heq.symm
      rw [List.append_eq_nil] at hnil
      obtain ⟨h₁, _⟩ := hnil
      rw [List.append_eq_nil] at h₁
      exact hemp (by simp [h₁.2])
  | cons c rest ih =>
    intro a b heq
    simp only [splitOnSub] at h
    split at h
    · cases h
    · rename_i hpre
      cases hrec : splitOnSub pat rest with
      | some ab => rw [hrec] at h; cases h
      | none =>
        cases a with
        | nil =>
          apply hpre
          apply List.isPrefixOf_iff_prefix.mpr
          exact ⟨b, by simpa using heq.symm⟩
        | cons c' a' =>
          have : rest = a' ++ pat ++ b := by
            have := heq
            simp only [List.cons_append] at this
            injection this with _ h₂
          exact ih hrec a' b this

theorem containsSub_iff_found {pat l : List Char} :
    containsSub pat l = true ↔ ∃ a b, l = a ++ pat ++ b := by
  unfold containsSub
  rw [Option.isSome_iff_exists]
  constructor
  · rintro ⟨⟨a, b⟩, h⟩
    exact ⟨a, b, splitOnSub_eq_some h⟩
  · rintro ⟨a, b, hab⟩
    cases hsp : splitOnSub pat l with
    | none => exact absurd hab (splitOnSub_none hsp a b)
    | some ab => exact ⟨ab, rfl⟩

theorem containsSub_iff_inf {pat l : List Char} :
    containsSub pat l = true ↔ pat <:+: l := by
  rw [containsSub_iff_found]
  constructor
  · rintro ⟨a, b, hab⟩; exact ⟨a, b, hab.symm⟩
  · rintro ⟨a, b, hab⟩; exact ⟨a, b, hab.symm⟩

theorem inf_dropWhile_iff (P : Char → Bool) (pat : List Char)
    (hne : pat ≠ []) (hp : ∀ c ∈ pat, P c = false) :
    ∀ l : List Char, (pat <:+: l.dropWhile P ↔ pat <:+: l) := by
  intro l
  induction l with
  | nil => simp
  | cons c l' ih =>
    by_cases hc : P c = true
    · rw [List.dropWhile_cons, if_pos hc]
      rw [ih]
      constructor
      · rintro ⟨s, t, hst⟩
        exact ⟨c :: s, t, by rw [List.cons_append, List.cons_append, hst]⟩
      · rintro ⟨s, t, hst⟩
        cases s with
        | nil =>
          exfalso
          cases pat with
          | nil => exact hne rfl
          | cons p ps =>
            simp only [List.nil_append, List.cons_append] at hst
            have hpc : p = c := by injection hst
            have := hp p (by simp)
            rw [hpc] at this
            rw [this] at hc
            cases hc
        | cons c₀ s' =>
          simp only [List.cons_append] at hst
          have h₂ : s' ++ pat ++ t = l' := by injection hst
          exact ⟨s', t, h₂⟩
    · rw [List.dropWhile_cons, if_neg hc]

theorem inf_reverse_iff (pat m : List Char) :
    pat <:+: m.reverse ↔ pat.reverse <:+: m := by
  constructor
  · intro h
    have h' : pat.reverse.reverse <:+: m.reverse := by
      rw [List.reverse_reverse]; exact h
    exact ( List.reverse_infix).mp h'
  · intro h
    have h' := ( List.reverse_infix).mpr h
    rw [List.reverse_reverse] at h'
    exact h'

theorem inf_pyStripL_iff (pat : List Char) (hne : pat ≠ [])
    (hp : ∀ c ∈ pat, isSpacePy c = false) (l : List Char) :
    (pat <:+: pyStripL l ↔ pat <:+: l) := by
  have hne' : pat.reverse ≠ [] := by simpa using hne
  have hp' : ∀ c ∈ pat.reverse, isSpacePy c = false := by
    intro c hc
    exact hp c (List.mem_reverse.mp hc)
  unfold pyStripL
  rw [inf_reverse_iff]
  rw [inf_dropWhile_iff isSpacePy pat.reverse hne' hp']
  rw [← inf_reverse_iff]
  rw [List.reverse_reverse]
  rw [inf_dropWhile_iff isSpacePy pat hne hp]

theorem spaceOfRange (n : Nat) (h1 : 65 ≤ n) (h2 : n ≤ 90) :
    isSpacePy (Char.ofNat n) = false := by
  interval_cases n <;> decide

theorem isSpacePy_pyUpperChar (c : Char) :
    isSpacePy (pyUpperChar c) = isSpacePy c := by
  unfold pyUpperChar
  split
  · rename_i h
    have h1 : isSpacePy c = false := by
      simp only [isSpacePy, decide_eq_false_iff_not]
      omega
    rw [h1]
    exact spaceOfRange _ (by omega) (by omega)
  · rfl

theorem map_pyStripL (l : List Char) :
    (pyStripL l).map pyUpperChar = pyStripL (l.map pyUpperChar) := by
  have hcomp : isSpacePy ∘ pyUpperChar = isSpacePy :=
    funext fun c => isSpacePy_pyUpperChar c
  simp [pyStripL, List.dropWhile_map, hcomp, ← List.map_reverse]

theorem containsSub_pyStripL (pat l : List Char) (hne : pat ≠ [])
    (hp : ∀ c ∈ pat, isSpacePy c = false) :
    containsSub pat (pyStripL l) = containsSub pat l := by
  rw [Bool.eq_iff_iff, containsSub_iff_inf, containsSub_iff_inf]
  exact inf_pyStripL_iff pat hne hp l

theorem append_overlap {l u v u' v' : List Char}
    (h1 : l = u ++ v) (h2 : l = u' ++ v') (hl : u.length ≤ u'.length) :
    ∃ w, v = w ++ v' := by
  have hu : u <+: l := ⟨v, h1.symm⟩
  have hu' : u' <+: l := ⟨v', h2.symm⟩
  obtain ⟨w, hw⟩ := List.prefix_of_prefix_length_le hu hu' hl
  refine ⟨w, ?_⟩
  have e : u ++ v = u ++ (w ++ v') := by
    rw [← h1, h2, ← hw, List.append_assoc]
  exact List.append_cancel_left e

theorem str_len_zero {s : String} (h : s.length = 0) : s = "" := by
  have hd : s.data = [] := List.length_eq_zero.mp h
  cases s
  simp_all

theorem append_ne_empty_left (a b : String) (h : a ≠ "") : a ++ b ≠ "" := by
  intro e
  apply h
  apply str_len_zero
  have hlen := congrArg String.length e
  rw [String.length_append] at hlen
  have h0 : ("" : String).length = 0 := rfl
  omega

/-- Full behavior of `extract_code`: either no python-tagged fenced block
occurs and the text is returned unchanged, or the result is exactly the
content of the first such block (leftmost opening delimiter, shortest
content). -/
theorem extract_code_spec (t : String) :
    (¬ HasPyFence t ∧ extract_code t = t) ∨
    (∃ pre c post, PyFenceAt t pre c post ∧ extract_code t = String.mk c ∧
      (∀ pre' c' post', PyFenceAt t pre' c' post' →
        pre.length ≤ pre'.length ∧ (pre' = pre → c.length ≤ c'.length))) := by
  cases hopen : splitOnSub pyFenceOpen t.data with
  | none =>
    left
    refine ⟨?_, by simp [extract_code, hopen]⟩
    rintro ⟨pre, c, post, hF⟩
    unfold PyFenceAt at hF
    exact splitOnSub_none hopen pre (c ++ pyFenceClose ++ post)
      (by simpa [List.append_assoc] using hF)
  | some ab =>
    obtain ⟨a, rest⟩ := ab
    have hteq : t.data = a ++ pyFenceOpen ++ rest := splitOnSub_eq_some hopen
    cases hclose : splitOnSub pyFenceClose rest with
    | none =>
      left
      refine ⟨?_, by simp [extract_code, hopen, hclose]⟩
      rintro ⟨pre, c, post, hF⟩
      unfold PyFenceAt at hF
      have h1 : t.data = (a ++ pyFenceOpen) ++ rest := by
        simpa [List.append_assoc] using hteq
      have h2 : t.data = (pre ++ pyFenceOpen ++ c) ++ (pyFenceClose ++ post) := by
        simpa [List.append_assoc] using hF
      have hmin := splitOnSub_min hopen pre (c ++ pyFenceClose ++ post)
        (by simpa [List.append_assoc] using hF)
      have hlen : (a ++ pyFenceOpen).length ≤ (pre ++ pyFenceOpen ++ c).length := by
        simp only [List.length_append]
        omega
      obtain ⟨w, hw⟩ := append_overlap h1 h2 hlen
      exact splitOnSub_none hclose w post (by simpa [List.append_assoc] using hw)
    | some cb =>
      obtain ⟨content, tail⟩ := cb
      right
      have hrest : rest = content ++ pyFenceClose ++ tail := splitOnSub_eq_some hclose
      refine ⟨a, content, tail, ?_, by simp [extract_code, hopen, hclose], ?_⟩
      · unfold PyFenceAt
        rw [hteq, hrest]
        simp [List.append_assoc]
      · rintro pre' c' post' hF'
        unfold PyFenceAt at hF'
        constructor
        · exact splitOnSub_min hopen pre' (c' ++ pyFenceClose ++ post')
            (by simpa [List.append_assoc] using hF')
        · rintro rfl
          have e : (pre' ++ pyFenceOpen) ++ rest =
              (pre' ++ pyFenceOpen) ++ (c' ++ pyFenceClose ++ post') := by
            rw [← hteq]
            simpa [List.append_assoc] using hF'
          have hr : rest = c' ++ pyFenceClose ++ post' := List.append_cancel_left e
          exact splitOnSub_min hclose c' post' hr

/-- Evaluation of `execute_code` when `exec` raises a fault that is an
`Exception` instance: the `except Exception` handler produces the
structured failure update. -/
theorem execute_code_fault_ok {execF : ExecFn} {st : GraphState} {t : OutTarget}
    {msg tr : String} {ctx' : List (String × PyVal)}
    (h : execF st.generated_code sandboxCtx = (ExecOutcome.fault true msg tr, ctx')) :
    (execute_code execF st t).1 =
      Except.ok { st with
        final_answer :=
          "Final Code:\n" ++ st.generated_code ++ "\n\nError in execution: " ++
            msg ++ "\nStack Trace:\n" ++ tr
        execution_failed := some true
        verification_result :=
          { approved := false
            feedback := "\nExecution Error: " ++ msg ++ "\nStack Trace:\n" ++ tr } } := by
  simp [execute_code, sandboxRun, h]

/-- Evaluation of `execute_code` when `exec` completes normally. -/
theorem execute_code_success_ok {execF : ExecFn} {st : GraphState} {t : OutTarget}
    {printed : String} {ctx' : List (String × PyVal)}
    (h : execF st.generated_code sandboxCtx = (ExecOutcome.success printed, ctx')) :
    (execute_code execF st t).1 =
      Except.ok { st with
        final_answer :=
          "Final Code:\n\n```\n" ++ st.generated_code ++
            "\n```\n\nPrinted Output:\n" ++ pyStripStr printed
        execution_failed := some false } := by
  simp [execute_code, sandboxRun, h, pyStripStr]

/-- Evaluation of `execute_code` when `exec` raises a fault that is not an
`Exception` instance: the fault propagates. -/
theorem execute_code_base_fault {execF : ExecFn} {st : GraphState} {t : OutTarget}
    {msg tr : String} {ctx' : List (String × PyVal)}
    (h : execF st.generated_code sandboxCtx = (ExecOutcome.fault false msg tr, ctx')) :
    (execute_code execF st t).1 = Except.error (msg, tr) := by
  simp [execute_code, sandboxRun, h]

-- ---------------------------------------------------------------------
-- Claim theorems
-- ---------------------------------------------------------------------

/-- C4: after every Sandboxed Executor invocation, on every exit path
(success, fault caught by the handler, or fault that propagates), the
globally redirected standard-output stream is restored to its
pre-invocation target: both the executor core and the whole
`execute_code` step leave the stdout target equal to its initial value. -/
theorem claim_C4 (execF : ExecFn) (st : GraphState) (code : String) (t : OutTarget) :
    (execute_code execF st t).2 = t ∧ (sandboxRun execF code t).2 = t := by
  constructor
  · simp only [execute_code, sandboxRun]
    cases (execF st.generated_code sandboxCtx).1 with
    | success printed => rfl
    | fault isE msg tr => cases isE <;> rfl
  · rfl

/-- C10: a session state in which the `execution_failed` key is absent is
routed by the post-execution predicate as if the flag were false: to the
terminal state, not to Refine. -/
theorem claim_C10 (st : GraphState) (h : st.execution_failed = none) :
    route_based_on_execution st = "END" ∧ nodeAfterExecution st = Node.END := by
  have hr : route_based_on_execution st = "END" := by
    unfold route_based_on_execution
    rw [h]
    rfl
  refine ⟨hr, ?_⟩
  unfold nodeAfterExecution
  rw [hr]
  rfl

/-- C10 witness: the claim instantiated at the initial state, where the
key is absent. -/
theorem claim_C10_witness :
    route_based_on_execution (initState "2+2") = "END" ∧
    nodeAfterExecution (initState "2+2") = Node.END :=
  claim_C10 (initState "2+2") rfl

/-- C7: the transition out of Verify goes to Execute exactly when the
current `verification_result.approved` is true and to Refine otherwise,
and the routing decision depends on nothing but that field. -/
theorem claim_C7 (st st' : GraphState) :
    (route_based_on_verification st = "execute_code" ↔
      st.verification_result.approved = true) ∧
    (route_based_on_verification st = "refine_code" ↔
      st.verification_result.approved = false) ∧
    (st.verification_result.approved = st'.verification_result.approved →
      route_based_on_verification st = route_based_on_verification st') ∧
    (nodeAfterVerification st = Node.execute_code ↔
      st.verification_result.approved = true) ∧
    (nodeAfterVerification st = Node.refine_code ↔
      st.verification_result.approved = false) := by
  unfold nodeAfterVerification route_based_on_verification
  cases h : st.verification_result.approved <;>
    cases h' : st'.verification_result.approved <;>
      simp_all

/-- C7 witness: two states agreeing on `approved` route identically, and
a rejecting state routes to Refine. -/
theorem claim_C7_witness :
    route_based_on_verification (initState "a") =
      route_based_on_verification (initState "b") ∧
    (route_based_on_verification (initState "a") = "refine_code" ↔
      (initState "a").verification_result.approved = false) :=
  ⟨(claim_C7 (initState "a") (initState "b")).2.2.1 rfl,
   (claim_C7 (initState "a") (initState "b")).2.1⟩

/-- C5: the Classify step sets `math_related` to true exactly when the
response text contains the affirmative token `YES` under case-insensitive
containment (`containsYesCI`), and a response without that signal routes
to the refusal path. -/
theorem claim_C5 (st : GraphState) (resp : String) :
    ((check_math_question st resp).math_related = containsYesCI resp) ∧
    (containsYesCI resp = false →
      route_based_on_math (check_math_question st resp) = "regular_response" ∧
      nodeAfterCheckMath (check_math_question st resp) = Node.regular_response) ∧
    (containsYesCI resp = true →
      route_based_on_math (check_math_question st resp) = "math_pipeline" ∧
      nodeAfterCheckMath (check_math_question st resp) = Node.math_pipeline) := by
  have key : (check_math_question st resp).math_related = containsYesCI resp := by
    show containsSub "YES".data ((pyStripL resp.data).map pyUpperChar) = containsYesCI resp
    unfold containsYesCI
    rw [map_pyStripL]
    exact containsSub_pyStripL _ _ (by decide) (by decide)
  refine ⟨key, ?_, ?_⟩
  · intro h
    have hm : (check_math_question st resp).math_related = false := by rw [key, h]
    constructor
    · unfold route_based_on_math
      rw [hm]
      rfl
    · unfold nodeAfterCheckMath route_based_on_math
      rw [hm]
      simp
  · intro h
    have hm : (check_math_question st resp).math_related = true := by rw [key, h]
    constructor
    · unfold route_based_on_math
      rw [hm]
      rfl
    · unfold nodeAfterCheckMath route_based_on_math
      rw [hm]
      simp

/-- C5 witness: a lowercase, whitespace-padded affirmative response is
classified as math-related, and a plain negative one routes to the
refusal path. -/
theorem claim_C5_witness :
    (check_math_question (initState "q") " yes ").math_related = true ∧
    route_based_on_math (check_math_question (initState "q") "NO") =
      "regular_response" :=
  ⟨by rw [(claim_C5 (initState "q") " yes ").1]; decide,
   ((claim_C5 (initState "q") "NO").2.1 (by decide)).1⟩

/-- C6: when the executed code raises a standard exception (the failure
the executor reports as its structured failure result), the Execute step
sets `execution_failed` to true, overwrites `verification_result` with
`approved = false` and feedback containing the error message and the
stack trace, and the machine transitions to Refine, not to the terminal
state. -/
theorem claim_C6 (execF : ExecFn) (st : GraphState) (t : OutTarget)
    (msg tr : String) (ctx' : List (String × PyVal))
    (h : execF st.generated_code sandboxCtx = (ExecOutcome.fault true msg tr, ctx')) :
    ∃ st', (execute_code execF st t).1 = Except.ok st' ∧
      st'.execution_failed = some true ∧
      st'.verification_result.approved = false ∧
      (msg.data <:+: st'.verification_result.feedback.data) ∧
      (tr.data <:+: st'.verification_result.feedback.data) ∧
      route_based_on_execution st' = "refine_code" ∧
      nodeAfterExecution st' = Node.refine_code := by
  refine ⟨_, execute_code_fault_ok h, rfl, rfl, ?_, ?_, rfl, rfl⟩
  · exact ⟨"\nExecution Error: ".data, ("\nStack Trace:\n" ++ tr).data,
      by simp [List.append_assoc]⟩
  · exact ⟨("\nExecution Error: " ++ msg ++ "\nStack Trace:\n").data, [],
      by simp [List.append_assoc]⟩

/-- C6 witness: the claim at a concrete failing execution (`exec` raising
`ValueError("boom")` with trace `tb`). -/
theorem claim_C6_witness :
    ∃ st', (execute_code faultExec (initState "q") OutTarget.real).1 =
        Except.ok st' ∧
      st'.execution_failed = some true ∧
      st'.verification_result.approved = false ∧
      (("boom" : String).data <:+: st'.verification_result.feedback.data) ∧
      (("tb" : String).data <:+: st'.verification_result.feedback.data) ∧
      route_based_on_execution st' = "refine_code" ∧
      nodeAfterExecution st' = Node.refine_code :=
  claim_C6 faultExec (initState "q") OutTarget.real "boom" "tb" sandboxCtx rfl

/-- C2 counterexample: code raising `SystemExit` (e.g. `raise SystemExit`
or `exit()`) raises a fault during execution that is not an `Exception`
instance; `except Exception` does not catch it, so it escapes the
executor instead of being converted into the structured failure result. -/
theorem claim_C2_counterexample :
    (execute_code baseFaultExec (initState "q") OutTarget.real).1 =
      Except.error ("SystemExit", "tb0") ∧
    ¬ ∃ st', (execute_code baseFaultExec (initState "q") OutTarget.real).1 =
      Except.ok st' := by
  constructor
  · rfl
  · rintro ⟨st', h⟩
    rw [show (execute_code baseFaultExec (initState "q") OutTarget.real).1 =
        Except.error ("SystemExit", "tb0") from rfl] at h
    cases h

/-- C2 amended: every fault raised by the executed code that is an
instance of the standard exception class is caught at the executor
boundary and converted into the structured failure result, with
`execution_failed` true and the error message and trace recorded in the
feedback and in the final answer; faults outside that class (such as
system-exit or keyboard-interrupt) propagate. -/
theorem claim_C2_amended (execF : ExecFn) (st : GraphState) (t : OutTarget)
    (msg tr : String) (ctx' : List (String × PyVal))
    (h : execF st.generated_code sandboxCtx = (ExecOutcome.fault true msg tr, ctx')) :
    ∃ st', (execute_code execF st t).1 = Except.ok st' ∧
      st'.execution_failed = some true ∧
      (msg.data <:+: st'.final_answer.data) ∧
      (tr.data <:+: st'.final_answer.data) := by
  refine ⟨_, execute_code_fault_ok h, rfl, ?_, ?_⟩
  · exact ⟨("Final Code:\n" ++ st.generated_code ++ "\n\nError in execution: ").data,
      ("\nStack Trace:\n" ++ tr).data, by simp [List.append_assoc]⟩
  · exact ⟨("Final Code:\n" ++ st.generated_code ++ "\n\nError in execution: " ++
      msg ++ "\nStack Trace:\n").data, [], by simp [List.append_assoc]⟩

/-- C2 witness: the amended claim at a concrete caught exception. -/
theorem claim_C2_witness :
    ∃ st', (execute_code faultExec (initState "w") OutTarget.capture).1 =
        Except.ok st' ∧
      st'.execution_failed = some true ∧
      (("boom" : String).data <:+: st'.final_answer.data) ∧
      (("tb" : String).data <:+: st'.final_answer.data) :=
  claim_C2_amended faultExec (initState "w") OutTarget.capture "boom" "tb"
    sandboxCtx rfl

/-- C8: two executor invocations with the same benign code and no shared
external state yield the same outcome (hence the same captured output);
every invocation evaluates the code in the freshly built context, which
binds only the NumPy alias, so bindings created by one invocation are not
visible in the next. -/
theorem claim_C8 (execF : ExecFn) (c : String) (t t' : OutTarget) (x : String)
    (hx : x ≠ "np") :
    ((twoInvocations execF c c t).1 = (twoInvocations execF c c t).2.1) ∧
    ((sandboxRun execF c t).1 = (sandboxRun execF c t').1) ∧
    ((sandboxRun execF c t).1 = (execF c sandboxCtx).1) ∧
    (lookupCtx sandboxCtx x = none) ∧
    (lookupCtx sandboxCtx "np" = some PyVal.np) := by
  refine ⟨rfl, rfl, rfl, ?_, rfl⟩
  show lookupCtx [("np", PyVal.np)] x = none
  simp only [lookupCtx]
  rw [if_neg fun hcontra => hx hcontra.symm]

/-- C8 witness: the claim at concrete benign code and a concrete
non-`np` name. -/
theorem claim_C8_witness :
    ((twoInvocations okExec "print(4)" "print(4)" OutTarget.real).1 =
      (twoInvocations okExec "print(4)" "print(4)" OutTarget.real).2.1) ∧
    ((sandboxRun okExec "print(4)" OutTarget.real).1 =
      (sandboxRun okExec "print(4)" OutTarget.capture).1) ∧
    ((sandboxRun okExec "print(4)" OutTarget.real).1 =
      (okExec "print(4)" sandboxCtx).1) ∧
    (lookupCtx sandboxCtx "leaked" = none) ∧
    (lookupCtx sandboxCtx "np" = some PyVal.np) :=
  claim_C8 okExec "print(4)" OutTarget.real OutTarget.capture "leaked" (by decide)

/-- C1 counterexample: a run in which Classify answers `YES`, Generate
returns a fenced `x=1`, Verify approves, and execution fails reaches a
configuration in which `final_answer` is already populated yet the Refine
step is the next to run — and one step of fuel later Refine has indeed
run on that state.  This falsifies both halves of the claim: Execute is
not terminal here although it sets `finalAnswer`, and a further step runs
after `finalAnswer` has been set. -/
theorem claim_C1_counterexample :
    run faultExec 4 Node.check_math (initState "q")
        ["YES", "```python\nx=1\n```", "APPROVED"] =
      RunResult.pending Node.refine_code c1StateA ∧
    c1StateA.final_answer ≠ "" ∧
    run faultExec 5 Node.check_math (initState "q")
        ["YES", "```python\nx=1\n```", "APPROVED"] =
      RunResult.pending Node.verify_code c1StateB := by
  refine ⟨by decide, by decide, by decide⟩

/-- C1 amended: `final_answer` is untouched by Classify, Generate, Verify
and Refine; RegularResponse sets it (non-empty) and the run then
terminates; an Execute whose execution succeeds sets it (non-empty) and
routes to the terminal state; but an Execute whose execution fails with a
caught exception also sets it (non-empty) and routes to Refine, so the
pipeline does run further steps on a session whose `final_answer` is
populated, overwriting it later. -/
theorem claim_C1_amended (execF : ExecFn) (st : GraphState) (r : String)
    (t : OutTarget) (msg tr printed : String)
    (ctx₁ ctx₂ : List (String × PyVal)) (resps : List String) (fuel : Nat) :
    ((check_math_question st r).final_answer = st.final_answer) ∧
    ((generate_initial_code st r).final_answer = st.final_answer) ∧
    ((verify_code st r).final_answer = st.final_answer) ∧
    ((refine_code st r).final_answer = st.final_answer) ∧
    ((regular_response st).final_answer ≠ "") ∧
    (run execF (fuel + 2) Node.regular_response st resps =
      RunResult.finished (regular_response st)) ∧
    (execF st.generated_code sandboxCtx = (ExecOutcome.success printed, ctx₁) →
      ∃ st', (execute_code execF st t).1 = Except.ok st' ∧
        st'.final_answer ≠ "" ∧ nodeAfterExecution st' = Node.END) ∧
    (execF st.generated_code sandboxCtx = (ExecOutcome.fault true msg tr, ctx₂) →
      ∃ st', (execute_code execF st t).1 = Except.ok st' ∧
        st'.final_answer ≠ "" ∧ nodeAfterExecution st' = Node.refine_code) := by
  refine ⟨rfl, rfl, rfl, rfl,
    (by decide : ("I'm sorry, I only answer coding questions." : String) ≠ ""),
    ?_, ?_, ?_⟩
  · show run execF (fuel + 1 + 1) Node.regular_response st resps =
      RunResult.finished (regular_response st)
    rw [run]
    rw [run]
  · intro h
    refine ⟨_, execute_code_success_ok h, ?_, rfl⟩
    apply append_ne_empty_left
    apply append_ne_empty_left
    apply append_ne_empty_left
    decide
  · intro h
    refine ⟨_, execute_code_fault_ok h, ?_, rfl⟩
    apply append_ne_empty_left
    apply append_ne_empty_left
    apply append_ne_empty_left
    apply append_ne_empty_left
    apply append_ne_empty_left
    decide

/-- C1 witness: the amended claim at a successful concrete execution, and
at a concrete failing one. -/
theorem claim_C1_witness :
    (∃ st', (execute_code okExec (initState "q") OutTarget.real).1 =
        Except.ok st' ∧
      st'.final_answer ≠ "" ∧ nodeAfterExecution st' = Node.END) ∧
    (∃ st', (execute_code faultExec (initState "p") OutTarget.real).1 =
        Except.ok st' ∧
      st'.final_answer ≠ "" ∧ nodeAfterExecution st' = Node.refine_code) :=
  ⟨(claim_C1_amended okExec (initState "q") "" OutTarget.real "m" "t" "4\n"
      sandboxCtx sandboxCtx [] 0).2.2.2.2.2.2.1 rfl,
   (claim_C1_amended faultExec (initState "p") "" OutTarget.real "boom" "tb" ""
      sandboxCtx sandboxCtx [] 0).2.2.2.2.2.2.2 rfl⟩

/-- C9 counterexample: with Classify answering `YES` and Generate
receiving an empty gateway response, the run reaches the Verify step with
`generated_code` equal to the empty string, refuting the non-emptiness
invariant. -/
theorem claim_C9_counterexample :
    run okExec 2 Node.check_math (initState "q") ["YES", ""] =
      RunResult.pending Node.verify_code c9State ∧
    c9State.generated_code = "" := by
  refine ⟨by decide, rfl⟩

/-- C9 amended: before Verify or Execute runs, Generate or Refine has
populated `generated_code` (each sets it wholesale to the extraction of
its gateway response, Verify preserves it, and the only edges into Verify
come from Generate and Refine while the only edge into Execute comes from
Verify) — but the populated value is not guaranteed non-empty, since the
extraction of an empty response is empty. -/
theorem claim_C9_amended (st : GraphState) (r : String) :
    ((generate_initial_code st r).generated_code = extract_code r) ∧
    ((refine_code st r).generated_code = extract_code r) ∧
    ((verify_code st r).generated_code = st.generated_code) ∧
    (nodeAfterCheckMath st = Node.math_pipeline ∨
      nodeAfterCheckMath st = Node.regular_response) ∧
    (nodeAfterVerification st = Node.execute_code ∨
      nodeAfterVerification st = Node.refine_code) ∧
    (nodeAfterExecution st = Node.refine_code ∨
      nodeAfterExecution st = Node.END) := by
  refine ⟨rfl, rfl, rfl, ?_, ?_, ?_⟩
  · unfold nodeAfterCheckMath
    split
    · left; rfl
    · right; rfl
  · unfold nodeAfterVerification
    split
    · left; rfl
    · right; rfl
  · unfold nodeAfterExecution
    split
    · left; rfl
    · right; rfl

/-- C3 counterexample: the text consisting of a fenced code block with no
language tag.  The text contains a fenced block (content `\nx=1\n`
between the two triple-delimiters), yet the Code Extractor returns the
whole input unchanged, which is not the content of any fenced block of
the text. -/
theorem claim_C3_counterexample :
    GenericFence fenceCexText "\nx=1\n" ∧
    extract_code fenceCexText = fenceCexText ∧
    (∀ c : String, GenericFence fenceCexText c → extract_code fenceCexText ≠ c) := by
  refine ⟨⟨[], [], by decide⟩, by decide, ?_⟩
  rintro c ⟨pre, post, h⟩ heq
  have hc : c = fenceCexText := by
    rw [← heq]
    decide
  subst hc
  have hlen := congrArg List.length h
  have h11 : fenceCexText.data.length = 11 := by decide
  simp [List.length_append, h11] at hlen
  omega

/-- C3 amended: the Code Extractor returns exactly the content of the
first python-tagged fenced code block (delimiters stripped) when the text
contains one, and returns the full input text unchanged otherwise —
including when the text contains only fenced blocks without the python
tag; it never fails on absent blocks. -/
theorem claim_C3_amended (t : String) :
    (¬ HasPyFence t ∧ extract_code t = t) ∨
    (∃ pre c post, PyFenceAt t pre c post ∧ extract_code t = String.mk c ∧
      (∀ pre' c' post', PyFenceAt t pre' c' post' →
        pre.length ≤ pre'.length ∧ (pre' = pre → c.length ≤ c'.length))) :=
  extract_code_spec t

/-- C4 witness: the restoration fact at a concrete oracle, state and
stdout target. -/
theorem claim_C4_witness :
    (execute_code faultExec (initState "4") OutTarget.real).2 = OutTarget.real ∧
    (sandboxRun faultExec "raise ValueError" OutTarget.real).2 = OutTarget.real :=
  claim_C4 faultExec (initState "4") "raise ValueError" OutTarget.real

/-- C3 witness: the amended extractor contract at a concrete text with a
python-tagged fenced block. -/
theorem claim_C3_witness :
    (¬ HasPyFence "a```python\nx\n```b" ∧
      extract_code "a```python\nx\n```b" = "a```python\nx\n```b") ∨
    (∃ pre c post, PyFenceAt "a```python\nx\n```b" pre c post ∧
      extract_code "a```python\nx\n```b" = String.mk c ∧
      (∀ pre' c' post', PyFenceAt "a```python\nx\n```b" pre' c' post' →
        pre.length ≤ pre'.length ∧ (pre' = pre → c.length ≤ c'.length))) :=
  claim_C3_amended "a```python\nx\n```b"

/-- C9 witness: the amended population facts at a concrete state and a
concrete generation response. -/
theorem claim_C9_witness :
    ((generate_initial_code (initState "z") "```python\ny=2\n```").generated_code =
      extract_code "```python\ny=2\n```") ∧
    ((refine_code (initState "z") "```python\ny=2\n```").generated_code =
      extract_code "```python\ny=2\n```") ∧
    ((verify_code (initState "z") "```python\ny=2\n```").generated_code =
      (initState "z").generated_code) ∧
    (nodeAfterCheckMath (initState "z") = Node.math_pipeline ∨
      nodeAfterCheckMath (initState "z") = Node.regular_response) ∧
    (nodeAfterVerification (initState "z") = Node.execute_code ∨
      nodeAfterVerification (initState "z") = Node.refine_code) ∧
    (nodeAfterExecution (initState "z") = Node.refine_code ∨
      nodeAfterExecution (initState "z") = Node.END) :=
  claim_C9_amended (initState "z") "```python\ny=2\n```"
